import Mathlib

/-!
Verification of the room-based bingo synchronization engine
(`src/backend/bingo_ws_server.py`) against its natural-language
specification.

The Python server keeps, per room, an insertion-ordered dict
`players : websocket → name`, a reverse dict `player_names : name → websocket`,
a set `numbers_drawn`, an optional `winner`, a list `turn_order`, an index
`turn_index`, and a string `phase` ("waiting" | "active" | "finished").
We embed dicts as association lists with Python-dict semantics (update in
place, insert appends), `numbers_drawn` as a duplicate-free list (numbers are
only added after an explicit membership check), connections as natural
numbers, and each message handler as a pure function
`Room → sender → payload → Room × List (Conn × Event)` returning the mutated
room together with the ordered list of (recipient, outbound event) pairs the
handler emits.
-/

/-- Connections (websocket objects) are modelled as opaque ids. -/
abbrev Conn := Nat

/-- Python dict lookup `d.get(k)` on an association list. -/
def dictGet {α β : Type} [DecidableEq α] : List (α × β) → α → Option β
  | [], _ => none
  | (a, b) :: t, k => if a = k then some b else dictGet t k

/-- Python dict assignment `d[k] = v`: updates the value in place if the key
is present (preserving insertion order), otherwise appends. -/
def dictInsert {α β : Type} [DecidableEq α] : List (α × β) → α → β → List (α × β)
  | [], k, v => [(k, v)]
  | (a, b) :: t, k, v => if a = k then (k, v) :: t else (a, b) :: dictInsert t k v

/-- Python dict deletion `del d[k]` / `d.pop(k, ...)`: removes the key's entry. -/
def dictRemove {α β : Type} [DecidableEq α] : List (α × β) → α → List (α × β)
  | [], _ => []
  | (a, b) :: t, k => if a = k then t else (a, b) :: dictRemove t k

/-- `list(d.keys())` in insertion order. -/
def dictKeys {α β : Type} (l : List (α × β)) : List α := l.map Prod.fst

/-- Python truthiness of the `winner` field, as tested by the source's
`if room["winner"]` / `if not room["winner"]` guards: `None` and the empty
string are falsy, any other string is truthy. -/
def truthy : Option String → Bool
  | none => false
  | some s => s != ""

/-- Per-room state, exactly the fields initialized by `create_room`
(`src/backend/bingo_ws_server.py:49-58`).  `phase` is one of the string
literals "waiting" | "active" | "finished", as in the source. -/
structure Room where
  players : List (Conn × String)
  player_names : List (String × Conn)
  numbers_drawn : List Int
  winner : Option String
  turn_order : List String
  turn_index : Nat
  phase : String
deriving DecidableEq, Repr

/-- The room as created by `create_room`. -/
def initRoom : Room :=
  { players := [], player_names := [], numbers_drawn := [], winner := none,
    turn_order := [], turn_index := 0, phase := "waiting" }

/-- Outbound events, one constructor per distinct `send_json` payload shape in
the source, carrying exactly the fields the source puts in the JSON object. -/
inductive Event where
  | state (numbers_drawn : List Int) (winner : Option String) (players : List String)
      (turn_order : List String) (current_player : Option String) (phase : String)
  | player_joined (player : String) (players : List String)
      (turn_order : List String) (current_player : Option String) (phase : String)
  | error (message : String)
  | invalid_move (reason : String) (current_player : Option String)
  | mark_number (number : Int) (marked_by : String)
  | next_turn (current_player : String) (turn_order : List String)
  | winner (winner : Option String) (phase : String)
  | reset (turn_order : List String) (current_player : Option String) (phase : String)
  | heartbeat_ack
  | player_left (player : String) (players : List String)
      (turn_order : List String) (current_player : Option String) (phase : String)
deriving DecidableEq, Repr

/-- Inbound messages.  The source reads `data.get("type")` plus, per type,
`data.get("name", "Unknown")` and `data.get("number")`.  A `join` message may
also carry a `playerId` field on the wire; the source never reads it, so the
handler below ignores it. -/
inductive Msg where
  | join (name : Option String) (playerId : Option String)
  | mark_number (number : Option Int)
  | winner
  | reset
  | heartbeat
deriving DecidableEq, Repr

/-- `join` handler (`src/backend/bingo_ws_server.py:89-132`).
Rejects a name already present in `player_names` with an `error` to the
sender only; otherwise binds the connection, appends to `turn_order` while
the phase is "waiting", replies with a `state` snapshot to the joiner and a
`player_joined` notification to every other connection. -/
def handleJoin (room : Room) (ws : Conn) (name : Option String) :
    Room × List (Conn × Event) :=
  let player_name := name.getD "Unknown"
  if (dictGet room.player_names player_name).isSome then
    (room, [(ws, Event.error "Name already taken in this room")])
  else
    let room1 : Room :=
      { room with players := dictInsert room.players ws player_name,
                  player_names := dictInsert room.player_names player_name ws }
    let room2 : Room :=
      { room1 with turn_order :=
          if room1.phase = "waiting" then room1.turn_order ++ [player_name]
          else room1.turn_order }
    let current_player : Option String :=
      if room2.turn_order = [] then none
      else some (room2.turn_order.getD room2.turn_index "")
    (room2,
      (ws, Event.state room2.numbers_drawn room2.winner (dictKeys room2.player_names)
        room2.turn_order current_player room2.phase)
      :: ((dictKeys room2.players).filter (fun c => c ≠ ws)).map
          (fun c => (c, Event.player_joined player_name (dictKeys room2.player_names)
            room2.turn_order current_player room2.phase)))

/-- The pre-validation auto-start (`src/backend/bingo_ws_server.py:143-145`):
`if room["phase"] == "waiting": room["phase"] = "active"`, executed before
the turn and duplicate checks. -/
def autoStart (room : Room) : Room :=
  if room.phase = "waiting" then { room with phase := "active" } else room

/-- `mark_number` handler (`src/backend/bingo_ws_server.py:134-194`).
Guards (each a bare `continue`, i.e. silent drop): a truthy `winner`, a
missing number, a falsy bound name.  Then the auto-start, the turn check
(the source's nested `if room["turn_order"]: ... if player_name != expected`
is flattened into one conjunction), the duplicate check, the accept path
with its `mark_number` broadcast, and the conditional turn advance with its
`next_turn` broadcast. -/
def handleMark (room : Room) (ws : Conn) (number : Option Int) :
    Room × List (Conn × Event) :=
  if truthy room.winner then (room, [])
  else
    match number with
    | none => (room, [])
    | some n =>
      match dictGet room.players ws with
      | none => (room, [])
      | some player_name =>
        if player_name = "" then (room, [])
        else
          let room1 := autoStart room
          if room1.turn_order ≠ [] ∧
              player_name ≠ room1.turn_order.getD room1.turn_index "" then
            (room1, [(ws, Event.invalid_move "Not your turn"
              (some (room1.turn_order.getD room1.turn_index "")))])
          else if n ∈ room1.numbers_drawn then
            (room1, [(ws, Event.invalid_move "Number already drawn"
              (if room1.turn_order = [] then none
               else some (room1.turn_order.getD room1.turn_index "")))])
          else
            let room2 : Room :=
              { room1 with numbers_drawn := room1.numbers_drawn ++ [n] }
            let markEvs :=
              (dictKeys room2.players).map
                (fun c => (c, Event.mark_number n player_name))
            if room2.turn_order ≠ [] ∧ room2.phase = "active" ∧
                truthy room2.winner = false then
              let room3 : Room :=
                { room2 with
                    turn_index := (room2.turn_index + 1) % room2.turn_order.length }
              (room3, markEvs ++ (dictKeys room3.players).map
                (fun c => (c, Event.next_turn
                  (room3.turn_order.getD room3.turn_index "") room3.turn_order)))
            else (room2, markEvs)

/-- `winner` handler (`src/backend/bingo_ws_server.py:196-208`).
`if not room["winner"]` (Python truthiness) sets the winner to the sender's
bound name (default "Unknown") and the phase to "finished"; in every case the
(possibly unchanged) winner and phase are broadcast to all connections. -/
def handleWinner (room : Room) (ws : Conn) : Room × List (Conn × Event) :=
  let room1 : Room :=
    if truthy room.winner then room
    else { room with winner := some ((dictGet room.players ws).getD "Unknown"),
                     phase := "finished" }
  (room1, (dictKeys room1.players).map
    (fun c => (c, Event.winner room1.winner room1.phase)))

/-- `reset` handler (`src/backend/bingo_ws_server.py:210-224`).
Clears `numbers_drawn` and `winner`, zeroes `turn_index`, sets phase back to
"waiting", and broadcasts a `reset` event to all connections.  (The source
maintains no round counter.) -/
def handleReset (room : Room) (_ws : Conn) : Room × List (Conn × Event) :=
  let room1 : Room :=
    { room with numbers_drawn := [], winner := none, turn_index := 0,
                phase := "waiting" }
  (room1, (dictKeys room1.players).map
    (fun c => (c, Event.reset room1.turn_order
      (if room1.turn_order = [] then none
       else some (room1.turn_order.getD 0 "")) room1.phase)))

/-- Disconnect handling (`src/backend/bingo_ws_server.py:229-260`).
Pops the membership entry (default name "Unknown"), removes the reverse
entry if present, removes the name from `turn_order` (Python `list.remove`,
first occurrence) and clamps `turn_index` to 0 when it falls out of range,
then broadcasts `player_left` to the remaining connections.  (The source's
two `current_player` branches at lines 241-245 compute the same expression;
the unused `idx = turn_order.index(...)` is omitted.  Registry deletion of
an emptied room is registry-level and outside the per-room state.) -/
def handleDisconnect (room : Room) (ws : Conn) : Room × List (Conn × Event) :=
  let player_name := (dictGet room.players ws).getD "Unknown"
  let room1 : Room := { room with players := dictRemove room.players ws }
  let room2 : Room :=
    { room1 with player_names :=
        if (dictGet room1.player_names player_name).isSome then
          dictRemove room1.player_names player_name
        else room1.player_names }
  if player_name ∈ room2.turn_order then
    let room3 : Room := { room2 with turn_order := room2.turn_order.erase player_name }
    let room4 : Room :=
      { room3 with turn_index :=
          if room3.turn_order.length ≤ room3.turn_index then 0
          else room3.turn_index }
    (room4, (dictKeys room4.players).map
      (fun c => (c, Event.player_left player_name (dictKeys room4.player_names)
        room4.turn_order
        (if room4.turn_order = [] then none
         else some (room4.turn_order.getD room4.turn_index ""))
        room4.phase)))
  else
    (room2, (dictKeys room2.players).map
      (fun c => (c, Event.player_left player_name (dictKeys room2.player_names)
        room2.turn_order
        (if room2.turn_order = [] then none
         else some (room2.turn_order.getD room2.turn_index ""))
        room2.phase)))

/-- Dispatch of an inbound message on a bound connection
(the `elif` chain at `src/backend/bingo_ws_server.py:87-227`). -/
def stepMsg (room : Room) (ws : Conn) : Msg → Room × List (Conn × Event)
  | Msg.join name _playerId => handleJoin room ws name
  | Msg.mark_number number => handleMark room ws number
  | Msg.winner => handleWinner room ws
  | Msg.reset => handleReset room ws
  | Msg.heartbeat => (room, [(ws, Event.heartbeat_ack)])

/-- Everything that can happen to a room: a connection opening (which binds
the placeholder name "Unknown", `src/backend/bingo_ws_server.py:82`), an
inbound message on a connection, or a disconnect. -/
inductive Act where
  | conn_open (ws : Conn)
  | msg (ws : Conn) (m : Msg)
  | disconnect (ws : Conn)
deriving DecidableEq, Repr

/-- One step of the room's evolution. -/
def step (room : Room) : Act → Room × List (Conn × Event)
  | Act.conn_open ws =>
      ({ room with players := dictInsert room.players ws "Unknown" }, [])
  | Act.msg ws m => stepMsg room ws m
  | Act.disconnect ws => handleDisconnect room ws

/-- Room states reachable from the freshly created room. -/
inductive Reachable : Room → Prop
  | init : Reachable initRoom
  | next (a : Act) {s : Room} : Reachable s → Reachable (step s a).1

/-- The turn-pointer invariant: in range when `turn_order` is non-empty, and
pinned to 0 when `turn_order` is empty (the strengthening needed for the
induction). -/
def TurnInv (room : Room) : Prop :=
  room.turn_index < room.turn_order.length ∨
    (room.turn_order = [] ∧ room.turn_index = 0)

/-- Response of the read-only snapshot endpoint, exactly the fields the
source returns (`src/backend/bingo_ws_server.py:66-71`). -/
structure StateResp where
  room_id : String
  players : List String
  numbers_drawn : List Int
  winner : Option String
deriving DecidableEq, Repr

/-- `GET /state/<room_id>` (`src/backend/bingo_ws_server.py:61-71`):
`none` models the 404 for an unknown code; otherwise the committed
`player_names` keys, `numbers_drawn`, and `winner` are returned. -/
def get_room_state (rooms : List (String × Room)) (room_id : String) :
    Option StateResp :=
  match dictGet rooms room_id with
  | none => none
  | some room =>
      some ⟨room_id, dictKeys room.player_names, room.numbers_drawn, room.winner⟩

/-! ## Helper lemmas about the dict embedding and the handlers -/

theorem dictGet_dictInsert_self {α β : Type} [DecidableEq α]
    (l : List (α × β)) (k : α) (v : β) : dictGet (dictInsert l k v) k = some v := by
  induction l with
  | nil => simp [dictInsert, dictGet]
  | cons hd tl ih =>
    obtain ⟨a, b⟩ := hd
    by_cases h : a = k
    · simp [dictInsert, dictGet, h]
    · simp [dictInsert, dictGet, h, ih]

theorem dictGet_of_mem_keys {α β : Type} [DecidableEq α]
    (l : List (α × β)) (k : α) (h : k ∈ dictKeys l) :
    ∃ v, dictGet l k = some v := by
  induction l with
  | nil => simp [dictKeys] at h
  | cons hd tl ih =>
    obtain ⟨a, b⟩ := hd
    by_cases hak : a = k
    · exact ⟨b, by simp [dictGet, hak]⟩
    · simp [dictKeys, Ne.symm hak] at h
      obtain ⟨v, hv⟩ := ih (by simpa [dictKeys] using h)
      exact ⟨v, by simp [dictGet, hak, hv]⟩

@[simp] theorem autoStart_players (room : Room) :
    (autoStart room).players = room.players := by
  unfold autoStart; split <;> rfl

@[simp] theorem autoStart_player_names (room : Room) :
    (autoStart room).player_names = room.player_names := by
  unfold autoStart; split <;> rfl

@[simp] theorem autoStart_numbers_drawn (room : Room) :
    (autoStart room).numbers_drawn = room.numbers_drawn := by
  unfold autoStart; split <;> rfl

@[simp] theorem autoStart_winner (room : Room) :
    (autoStart room).winner = room.winner := by
  unfold autoStart; split <;> rfl

@[simp] theorem autoStart_turn_order (room : Room) :
    (autoStart room).turn_order = room.turn_order := by
  unfold autoStart; split <;> rfl

@[simp] theorem autoStart_turn_index (room : Room) :
    (autoStart room).turn_index = room.turn_index := by
  unfold autoStart; split <;> rfl

/-! ## Concrete rooms used by witnesses and counterexamples -/

/-- A waiting two-player room: Alice joined first, so it is Alice's turn. -/
def roomW : Room :=
  { players := [(1, "Alice"), (2, "Bob")],
    player_names := [("Alice", 1), ("Bob", 2)],
    numbers_drawn := [], winner := none,
    turn_order := ["Alice", "Bob"], turn_index := 0, phase := "waiting" }

/-- A finished two-player room: Carol was declared winner, 7 already drawn. -/
def roomF : Room :=
  { players := [(1, "Alice"), (2, "Bob")],
    player_names := [("Alice", 1), ("Bob", 2)],
    numbers_drawn := [7], winner := some "Carol",
    turn_order := ["Alice", "Bob"], turn_index := 0, phase := "finished" }

/-- A one-player waiting room with nothing drawn: a fixed point of `reset`. -/
def roomA : Room :=
  { players := [(1, "Alice")], player_names := [("Alice", 1)],
    numbers_drawn := [], winner := none,
    turn_order := ["Alice"], turn_index := 0, phase := "waiting" }

/-- Shared evaluation lemma: on an out-of-turn `mark_number` (winner unset,
number present, non-empty bound name), the handler returns the auto-started
room unchanged otherwise, plus a single `invalid_move` to the sender. -/
theorem handleMark_out_of_turn (room : Room) (ws : Conn) (n : Int) (pname : String)
    (hbind : dictGet room.players ws = some pname) (hne : pname ≠ "")
    (hw : room.winner = none) (hto : room.turn_order ≠ [])
    (hturn : pname ≠ room.turn_order.getD room.turn_index "") :
    handleMark room ws (some n) =
      (autoStart room, [(ws, Event.invalid_move "Not your turn"
        (some (room.turn_order.getD room.turn_index "")))]) := by
  unfold handleMark
  rw [hw, hbind]
  simp only [truthy, Bool.false_eq_true, if_false]
  rw [if_neg hne]
  rw [if_pos (by
    simp only [autoStart_turn_order, autoStart_turn_index]
    exact ⟨hto, hturn⟩)]
  simp

/-! ## C1 -/

/-- C1 (out-of-turn mark_number): provided no winner is set, the message
carries a number, and the sender's bound name is non-empty, an out-of-turn
`mark_number` leaves `numbers_drawn`, `turn_index`, `turn_order`, `winner`
and the membership maps unchanged, performs no broadcast, and delivers
exactly one `invalid_move` with reason "Not your turn" and the expected
current player to the sender only.  (The phase, however, can change: see the
counterexample `mark_out_of_turn_mutates_phase`.) -/
theorem mark_out_of_turn_rejected (room : Room) (ws : Conn) (n : Int) (pname : String)
    (hbind : dictGet room.players ws = some pname) (hne : pname ≠ "")
    (hw : room.winner = none) (hto : room.turn_order ≠ [])
    (hturn : pname ≠ room.turn_order.getD room.turn_index "") :
    (handleMark room ws (some n)).1.numbers_drawn = room.numbers_drawn ∧
    (handleMark room ws (some n)).1.turn_index = room.turn_index ∧
    (handleMark room ws (some n)).1.turn_order = room.turn_order ∧
    (handleMark room ws (some n)).1.winner = room.winner ∧
    (handleMark room ws (some n)).1.players = room.players ∧
    (handleMark room ws (some n)).1.player_names = room.player_names ∧
    (handleMark room ws (some n)).2 =
      [(ws, Event.invalid_move "Not your turn"
        (some (room.turn_order.getD room.turn_index "")))] := by
  rw [handleMark_out_of_turn room ws n pname hbind hne hw hto hturn]
  simp [hw]

/-- Witness for `mark_out_of_turn_rejected`: in the waiting room `roomW` it is
Alice's turn, and Bob's attempt to mark 7 is rejected with a single
`invalid_move` to Bob and no change outside the phase. -/
theorem mark_out_of_turn_rejected_witness :
    dictGet roomW.players 2 = some "Bob" ∧ "Bob" ≠ "" ∧ roomW.winner = none ∧
    roomW.turn_order ≠ [] ∧ "Bob" ≠ roomW.turn_order.getD roomW.turn_index "" ∧
    ((handleMark roomW 2 (some 7)).1.numbers_drawn = roomW.numbers_drawn ∧
     (handleMark roomW 2 (some 7)).1.turn_index = roomW.turn_index ∧
     (handleMark roomW 2 (some 7)).1.turn_order = roomW.turn_order ∧
     (handleMark roomW 2 (some 7)).1.winner = roomW.winner ∧
     (handleMark roomW 2 (some 7)).1.players = roomW.players ∧
     (handleMark roomW 2 (some 7)).1.player_names = roomW.player_names ∧
     (handleMark roomW 2 (some 7)).2 =
       [(2, Event.invalid_move "Not your turn"
         (some (roomW.turn_order.getD roomW.turn_index "")))]) :=
  ⟨by decide, by decide, by decide, by decide, by decide,
    mark_out_of_turn_rejected roomW 2 7 "Bob" (by decide) (by decide) (by decide)
      (by decide) (by decide)⟩

/-- C1 counterexample: in the waiting room `roomW`, Bob's out-of-turn mark of
7 flips the phase from "waiting" to "active" even though the move is
rejected — so the handler does NOT leave the room state entirely unchanged. -/
theorem mark_out_of_turn_mutates_phase :
    roomW.phase = "waiting" ∧ roomW.turn_order ≠ [] ∧ roomW.winner = none ∧
    dictGet roomW.players 2 = some "Bob" ∧
    "Bob" ≠ roomW.turn_order.getD roomW.turn_index "" ∧
    (handleMark roomW 2 (some 7)).1.phase = "active" := by decide

/-! ## C2 -/

/-- C2 (code bug, evaluated at the failing input): in the waiting room
`roomW` Bob's out-of-turn mark of 7 is rejected ("Not your turn", no number
added), yet the phase still transitions from "waiting" to "active", because
the source flips the phase before running the turn check
(`src/backend/bingo_ws_server.py:143-145`) — contradicting its own comment
"Auto-start game on first valid mark" and the specified
Waiting → Active trigger. -/
theorem autostart_on_rejected_mark :
    roomW.phase = "waiting" ∧
    (handleMark roomW 2 (some 7)).2 =
      [(2, Event.invalid_move "Not your turn" (some "Alice"))] ∧
    (handleMark roomW 2 (some 7)).1.numbers_drawn = [] ∧
    (handleMark roomW 2 (some 7)).1.phase = "active" := by decide

/-! ## C3 -/

/-- C3 (amended): the join handler maintains no identity index and reads only
the message's name field — a supplied `playerId` is ignored entirely (the
result is identical for any two `playerId` values), and when the supplied
name is free the connection is bound to that supplied name. -/
theorem join_ignores_player_id (room : Room) (ws : Conn) (name : Option String)
    (pid pid' : Option String) :
    stepMsg room ws (Msg.join name pid) = stepMsg room ws (Msg.join name pid') ∧
    (dictGet room.player_names (name.getD "Unknown") = none →
      dictGet (stepMsg room ws (Msg.join name pid)).1.players ws =
        some (name.getD "Unknown")) := by
  refine ⟨rfl, fun h => ?_⟩
  simp only [stepMsg, handleJoin, h, Option.isSome_none, Bool.false_eq_true, if_false]
  exact dictGet_dictInsert_self room.players ws (name.getD "Unknown")

/-- Witness for `join_ignores_player_id`: in `roomW`, a join by connection 3
with name "Carol" gives the same result whether or not a playerId
"pid-123" is supplied, and binds "Carol". -/
theorem join_ignores_player_id_witness :
    stepMsg roomW 3 (Msg.join (some "Carol") (some "pid-123")) =
      stepMsg roomW 3 (Msg.join (some "Carol") none) ∧
    dictGet (stepMsg roomW 3 (Msg.join (some "Carol") (some "pid-123"))).1.players 3 =
      some "Carol" :=
  ⟨(join_ignores_player_id roomW 3 (some "Carol") (some "pid-123") none).1,
   (join_ignores_player_id roomW 3 (some "Carol") (some "pid-123") none).2 (by decide)⟩

/-- C3 counterexample: a join that supplies both a playerId and a new name
"Bruce" binds "Bruce" (not any stored display name), its result is exactly
the playerId-free join's result, and its `state` reply (the first emitted
event) carries no playerId at all — the code never rebinds through a
playerId. -/
theorem join_binds_supplied_name_not_stored :
    stepMsg roomW 3 (Msg.join (some "Bruce") (some "alice-token")) =
      stepMsg roomW 3 (Msg.join (some "Bruce") none) ∧
    dictGet (stepMsg roomW 3 (Msg.join (some "Bruce") (some "alice-token"))).1.players 3 =
      some "Bruce" ∧
    (stepMsg roomW 3 (Msg.join (some "Bruce") (some "alice-token"))).2.head? =
      some (3, Event.state [] none ["Alice", "Bob", "Bruce"]
        ["Alice", "Bob", "Bruce"] (some "Alice") "waiting") := by decide

/-! ## C4 -/

/-- C4 (amended): `reset` yields an empty `numbers_drawn`, no winner,
`turn_index = 0`, phase "waiting", and leaves `turn_order` and both
membership maps unchanged.  (The source maintains no round counter, so
nothing is incremented: see `reset_has_no_round_counter`.) -/
theorem reset_clears_state (room : Room) (ws : Conn) :
    (handleReset room ws).1.numbers_drawn = [] ∧
    (handleReset room ws).1.winner = none ∧
    (handleReset room ws).1.turn_index = 0 ∧
    (handleReset room ws).1.phase = "waiting" ∧
    (handleReset room ws).1.turn_order = room.turn_order ∧
    (handleReset room ws).1.players = room.players ∧
    (handleReset room ws).1.player_names = room.player_names :=
  ⟨rfl, rfl, rfl, rfl, rfl, rfl, rfl⟩

/-- C4 counterexample: the room state contains no round counter — `reset` has
a fixed point (`roomA`), so no observer `r : Room → Nat` of the room state
can increment on every reset, contradicting "round incremented by 1". -/
theorem reset_has_no_round_counter :
    (handleReset roomA 1).1 = roomA ∧
    ¬ ∃ r : Room → Nat, ∀ s : Room, r (handleReset s 1).1 = r s + 1 := by
  constructor
  · decide
  · rintro ⟨r, hr⟩
    have h := hr roomA
    rw [show (handleReset roomA 1).1 = roomA by decide] at h
    omega

/-! ## C5 -/

/-- C5 (amended): provided no winner is set and the sender's bound name is
non-empty, a `mark_number` that is both out-of-turn and a duplicate is
rejected by the turn check alone: the sender observes exactly one
`invalid_move`, whose reason is "Not your turn" — never
"Number already drawn". -/
theorem turn_check_before_duplicate_check (room : Room) (ws : Conn) (n : Int)
    (pname : String)
    (hbind : dictGet room.players ws = some pname) (hne : pname ≠ "")
    (hw : room.winner = none) (hto : room.turn_order ≠ [])
    (hturn : pname ≠ room.turn_order.getD room.turn_index "")
    (_hdup : n ∈ room.numbers_drawn) :
    (handleMark room ws (some n)).2 =
      [(ws, Event.invalid_move "Not your turn"
        (some (room.turn_order.getD room.turn_index "")))] ∧
    ∀ c reason cp, (c, Event.invalid_move reason cp) ∈ (handleMark room ws (some n)).2 →
      reason = "Not your turn" := by
  rw [handleMark_out_of_turn room ws n pname hbind hne hw hto hturn]
  refine ⟨rfl, fun c reason cp hmem => ?_⟩
  simp only [List.mem_singleton, Prod.mk.injEq, Event.invalid_move.injEq] at hmem
  exact hmem.2.1

/-- An active two-player room with 7 already drawn; it is Alice's turn. -/
def roomD : Room :=
  { players := [(1, "Alice"), (2, "Bob")],
    player_names := [("Alice", 1), ("Bob", 2)],
    numbers_drawn := [7], winner := none,
    turn_order := ["Alice", "Bob"], turn_index := 0, phase := "active" }

/-- Witness for `turn_check_before_duplicate_check`: in the active room
`roomD` (7 already drawn, Alice's turn), Bob marks the already-drawn 7 and
receives only "Not your turn". -/
theorem turn_check_before_duplicate_check_witness :
    dictGet roomD.players 2 = some "Bob" ∧ "Bob" ≠ "" ∧ roomD.winner = none ∧
    roomD.turn_order ≠ [] ∧ "Bob" ≠ roomD.turn_order.getD roomD.turn_index "" ∧
    (7 : Int) ∈ roomD.numbers_drawn ∧
    (handleMark roomD 2 (some 7)).2 =
      [(2, Event.invalid_move "Not your turn"
        (some (roomD.turn_order.getD roomD.turn_index "")))] :=
  ⟨by decide, by decide, by decide, by decide, by decide, by decide,
   (turn_check_before_duplicate_check roomD 2 7 "Bob" (by decide) (by decide)
     (by decide) (by decide) (by decide) (by decide)).1⟩

/-- C5 counterexample: in the finished room `roomF` (winner already set),
Bob's mark of the already-drawn 7 is both out-of-turn and a duplicate, yet
the sender observes no rejection at all — the message is silently dropped,
so the claim's "exactly the single rejection reason" fails. -/
theorem finished_room_mark_silently_dropped :
    dictGet roomF.players 2 = some "Bob" ∧ roomF.turn_order ≠ [] ∧
    "Bob" ≠ roomF.turn_order.getD roomF.turn_index "" ∧
    (7 : Int) ∈ roomF.numbers_drawn ∧
    handleMark roomF 2 (some 7) = (roomF, []) := by decide

/-! ## C6 -/

/-- C6 (amended): a winner declaration while the stored winner is
Python-falsy (unset, or the empty string) sets `winner` to the declarer's
bound name and the phase to "finished"; a declaration while a non-empty
winner is stored leaves the room state entirely unchanged and re-broadcasts
the existing winner and phase to every bound connection. -/
theorem winner_first_sets_then_noop (room : Room) (ws : Conn) (w : String) :
    (truthy room.winner = false →
      (handleWinner room ws).1.winner =
        some ((dictGet room.players ws).getD "Unknown") ∧
      (handleWinner room ws).1.phase = "finished" ∧
      (handleWinner room ws).2 = (dictKeys room.players).map
        (fun c => (c, Event.winner
          (some ((dictGet room.players ws).getD "Unknown")) "finished"))) ∧
    (room.winner = some w → w ≠ "" →
      (handleWinner room ws).1 = room ∧
      (handleWinner room ws).2 = (dictKeys room.players).map
        (fun c => (c, Event.winner (some w) room.phase))) := by
  constructor
  · intro h
    simp [handleWinner, h]
  · intro hw hne
    have ht : truthy (some w) = true := by simpa [truthy] using hne
    simp [handleWinner, hw, ht]

/-- Witness for `winner_first_sets_then_noop`: in `roomA` (no winner yet) a
declaration by connection 1 sets winner "Alice" and finishes the game; in
`roomF` (winner "Carol") a declaration by connection 2 is a state no-op that
re-broadcasts "Carol". -/
theorem winner_first_sets_then_noop_witness :
    (truthy roomA.winner = false ∧
     (handleWinner roomA 1).1.winner =
       some ((dictGet roomA.players 1).getD "Unknown") ∧
     (handleWinner roomA 1).1.phase = "finished" ∧
     (handleWinner roomA 1).2 = (dictKeys roomA.players).map
       (fun c => (c, Event.winner
         (some ((dictGet roomA.players 1).getD "Unknown")) "finished"))) ∧
    (roomF.winner = some "Carol" ∧ "Carol" ≠ "" ∧
     (handleWinner roomF 2).1 = roomF ∧
     (handleWinner roomF 2).2 = (dictKeys roomF.players).map
       (fun c => (c, Event.winner (some "Carol") roomF.phase))) :=
  ⟨⟨by decide, (winner_first_sets_then_noop roomA 1 "x").1 (by decide)⟩,
   ⟨by decide, by decide,
    (winner_first_sets_then_noop roomF 2 "Carol").2 (by decide) (by decide)⟩⟩

/-- A reachable waiting room in which connection 1 joined under the empty
display name "" (a join message whose name field is the empty string) and
connection 2 joined as "Bob". -/
def roomE : Room :=
  { players := [(1, ""), (2, "Bob")], player_names := [("", 1), ("Bob", 2)],
    numbers_drawn := [], winner := none,
    turn_order := ["", "Bob"], turn_index := 0, phase := "waiting" }

/-- C6 counterexample: `roomE` is reachable; the first winner declaration
(by connection 1, bound to the empty name) sets `winner` to `""` and
finishes the game, but a subsequent declaration by connection 2 does NOT
leave the winner unchanged: `if not room["winner"]` treats the stored `""`
as unset (Python falsiness) and overwrites it with "Bob". -/
theorem empty_winner_overwritten :
    Reachable roomE ∧
    (handleWinner roomE 1).1.winner = some "" ∧
    (handleWinner roomE 1).1.phase = "finished" ∧
    (handleWinner (handleWinner roomE 1).1 2).1.winner = some "Bob" ∧
    some "Bob" ≠ some "" := by
  refine ⟨?_, by decide, by decide, by decide, by decide⟩
  have h0 : Reachable initRoom := Reachable.init
  have h1 := Reachable.next (Act.conn_open 1) h0
  have h2 := Reachable.next (Act.msg 1 (Msg.join (some "") none)) h1
  have h3 := Reachable.next (Act.conn_open 2) h2
  have h4 := Reachable.next (Act.msg 2 (Msg.join (some "Bob") none)) h3
  have he : (step (step (step (step initRoom (Act.conn_open 1)).1
      (Act.msg 1 (Msg.join (some "") none))).1 (Act.conn_open 2)).1
      (Act.msg 2 (Msg.join (some "Bob") none))).1 = roomE := by decide
  rw [he] at h4
  exact h4

/-! ## C7 -/

theorem turnInv_autoStart (room : Room) (h : TurnInv room) :
    TurnInv (autoStart room) := by
  unfold TurnInv at h ⊢
  simpa only [autoStart_turn_order, autoStart_turn_index] using h

theorem turnInv_handleJoin (room : Room) (ws : Conn) (name : Option String)
    (h : TurnInv room) : TurnInv (handleJoin room ws name).1 := by
  simp only [handleJoin]
  split
  · exact h
  · unfold TurnInv at h ⊢
    split
    · rcases h with h | ⟨ho, hi⟩
      · exact Or.inl (by simp only [List.length_append, List.length_singleton]; omega)
      · exact Or.inl (by simp [ho, hi])
    · exact h

theorem turnInv_handleMark (room : Room) (ws : Conn) (number : Option Int)
    (h : TurnInv room) : TurnInv (handleMark room ws number).1 := by
  have hAuto : TurnInv (autoStart room) := turnInv_autoStart room h
  simp only [handleMark]
  split
  · exact h
  split
  · exact h
  split
  · exact h
  rename_i n pname _
  split
  · exact h
  split
  · exact hAuto
  split
  · exact hAuto
  split
  · rename_i hcond
    exact Or.inl (Nat.mod_lt _ (List.length_pos.mpr hcond.1))
  · exact hAuto

theorem turnInv_handleWinner (room : Room) (ws : Conn)
    (h : TurnInv room) : TurnInv (handleWinner room ws).1 := by
  simp only [handleWinner]
  split
  · exact h
  · exact h

theorem turnInv_handleReset (room : Room) (ws : Conn) :
    TurnInv (handleReset room ws).1 := by
  unfold handleReset TurnInv
  rcases eq_or_ne room.turn_order [] with he | he
  · exact Or.inr ⟨he, rfl⟩
  · exact Or.inl (List.length_pos.mpr he)

theorem turnInv_handleDisconnect (room : Room) (ws : Conn)
    (h : TurnInv room) : TurnInv (handleDisconnect room ws).1 := by
  simp only [handleDisconnect]
  split
  · simp only [TurnInv]
    split
    · rcases eq_or_ne
        (room.turn_order.erase ((dictGet room.players ws).getD "Unknown")) [] with
        he | he
      · exact Or.inr ⟨he, rfl⟩
      · exact Or.inl (List.length_pos.mpr he)
    · rename_i hni
      exact Or.inl (not_le.mp hni)
  · exact h

theorem turnInv_step (room : Room) (a : Act) (h : TurnInv room) :
    TurnInv (step room a).1 := by
  cases a with
  | conn_open ws => exact h
  | msg ws m =>
    cases m with
    | join name pid => exact turnInv_handleJoin room ws name h
    | mark_number num => exact turnInv_handleMark room ws num h
    | winner => exact turnInv_handleWinner room ws h
    | reset => exact turnInv_handleReset room ws
    | heartbeat => exact h
  | disconnect ws => exact turnInv_handleDisconnect room ws h

theorem turnInv_reachable (s : Room) (h : Reachable s) : TurnInv s := by
  induction h with
  | init => exact Or.inr ⟨rfl, rfl⟩
  | next a hs ih => exact turnInv_step _ a ih

/-- C7: in every reachable room state, whenever `turn_order` is non-empty the
pointer satisfies `turn_index < len(turn_order)`; and the (strengthened)
bound is preserved by every single operation — connection open, join,
mark_number with its modular advance, winner, reset, heartbeat, and
disconnect with its removal-and-clamp. -/
theorem turn_index_in_bounds :
    (∀ s : Room, Reachable s → s.turn_order ≠ [] →
      s.turn_index < s.turn_order.length) ∧
    (∀ (s : Room) (a : Act), TurnInv s → TurnInv (step s a).1) :=
  ⟨fun s h hne => (turnInv_reachable s h).resolve_right (fun ⟨he, _⟩ => hne he),
   fun s a h => turnInv_step s a h⟩

/-- Witness for `turn_index_in_bounds`: the reachable one-player room `roomA`
has a non-empty `turn_order` and its `turn_index` is in bounds; one concrete
step application preserves the invariant. -/
theorem turn_index_in_bounds_witness :
    (roomA.turn_order ≠ [] ∧ roomA.turn_index < roomA.turn_order.length) ∧
    TurnInv (step roomA (Act.msg 1 (Msg.mark_number (some 7)))).1 := by
  have h0 : Reachable initRoom := Reachable.init
  have h1 := Reachable.next (Act.conn_open 1) h0
  have h2 := Reachable.next (Act.msg 1 (Msg.join (some "Alice") none)) h1
  have he : (step (step initRoom (Act.conn_open 1)).1
      (Act.msg 1 (Msg.join (some "Alice") none))).1 = roomA := by decide
  rw [he] at h2
  exact ⟨⟨by decide, turn_index_in_bounds.1 roomA h2 (by decide)⟩,
    turn_index_in_bounds.2 roomA (Act.msg 1 (Msg.mark_number (some 7)))
      (Or.inl (by decide))⟩

/-! ## C8 -/

/-- The winner broadcast always fans out over the (unchanged) membership. -/
theorem handleWinner_events (room : Room) (ws : Conn) :
    (handleWinner room ws).2 = (dictKeys room.players).map
      (fun c => (c, Event.winner (handleWinner room ws).1.winner
        (handleWinner room ws).1.phase)) := by
  simp only [handleWinner]
  split <;> rfl

/-- C8 (amended): every inbound message of the five known types on a bound
connection yields at least one event delivered to its sender (a state
snapshot or error, a broadcast that includes the sender, a rejection, or a
heartbeat ack) — except for the `mark_number` silent-drop guards, excluded
by hypothesis: a truthy stored winner, a missing number field, or an empty
bound name each make the handler drop the message with no reply at all
(see `mark_dropped_without_reply`). -/
theorem bound_sender_always_replied (room : Room) (ws : Conn) (m : Msg)
    (hws : ws ∈ dictKeys room.players)
    (hm : ∀ num, m = Msg.mark_number num →
      truthy room.winner = false ∧ num ≠ none ∧
        dictGet room.players ws ≠ some "") :
    ∃ e, (ws, e) ∈ (stepMsg room ws m).2 := by
  cases m with
  | join name pid =>
    simp only [stepMsg, handleJoin]
    split
    · exact ⟨Event.error "Name already taken in this room", List.mem_singleton.mpr rfl⟩
    · exact ⟨_, List.mem_cons_self _ _⟩
  | mark_number num =>
    obtain ⟨hwf, hnum, hne⟩ := hm num rfl
    obtain ⟨pname, hp⟩ := dictGet_of_mem_keys room.players ws hws
    obtain ⟨n, rfl⟩ := Option.ne_none_iff_exists'.mp hnum
    have hpne : ¬pname = "" := fun h => hne (h ▸ hp)
    simp only [stepMsg, handleMark, hwf, Bool.false_eq_true, if_false, hp]
    rw [if_neg hpne]
    split
    · exact ⟨_, List.mem_singleton.mpr rfl⟩
    split
    · exact ⟨_, List.mem_singleton.mpr rfl⟩
    split
    · refine ⟨Event.mark_number n pname, List.mem_append_left _ ?_⟩
      simp only [autoStart_players, List.mem_map]
      exact ⟨ws, hws, rfl⟩
    · refine ⟨Event.mark_number n pname, ?_⟩
      simp only [autoStart_players, List.mem_map]
      exact ⟨ws, hws, rfl⟩
  | winner =>
    show ∃ e, (ws, e) ∈ (handleWinner room ws).2
    rw [handleWinner_events room ws]
    exact ⟨_, List.mem_map.mpr ⟨ws, hws, rfl⟩⟩
  | reset =>
    show ∃ e, (ws, e) ∈ (handleReset room ws).2
    simp only [handleReset, List.mem_map]
    exact ⟨_, ⟨ws, hws, rfl⟩⟩
  | heartbeat => exact ⟨Event.heartbeat_ack, List.mem_singleton.mpr rfl⟩

/-- Witness for `bound_sender_always_replied`: Bob (connection 2, bound in
`roomW`) sends a heartbeat and receives at least one event back. -/
theorem bound_sender_always_replied_witness :
    2 ∈ dictKeys roomW.players ∧
    ∃ e, (2, e) ∈ (stepMsg roomW 2 Msg.heartbeat).2 :=
  ⟨by decide, bound_sender_always_replied roomW 2 Msg.heartbeat (by decide)
    (fun num h => nomatch h)⟩

/-- C8 counterexample: in the finished room `roomF`, the bound connection 2
sends `mark_number 9`; the handler performs no state mutation, no broadcast,
and sends no reply at all — the message is dropped with neither, because of
the `if room["winner"]: continue` guard. -/
theorem mark_dropped_without_reply :
    2 ∈ dictKeys roomF.players ∧
    stepMsg roomF 2 (Msg.mark_number (some 9)) = (roomF, []) := by decide

/-! ## C9 -/

/-- C9 (amended): the read-only snapshot query returns exactly the room's
registered display names (the keys of `player_names`), its `numbers_drawn`,
and its `winner` as committed, and returns NotFound (modelled `none`)
exactly when the code is not in the registry.  (No round counter exists or
is returned: see `snapshot_unchanged_by_reset`.) -/
theorem snapshot_returns_committed_state (rooms : List (String × Room))
    (code : String) :
    (dictGet rooms code = none → get_room_state rooms code = none) ∧
    (∀ room, dictGet rooms code = some room →
      get_room_state rooms code =
        some ⟨code, dictKeys room.player_names, room.numbers_drawn, room.winner⟩) := by
  constructor
  · intro h
    simp [get_room_state, h]
  · intro room h
    simp [get_room_state, h]

/-- Witness for `snapshot_returns_committed_state`: a one-room registry
answers 404 for an unknown code and the committed fields for "AB". -/
theorem snapshot_returns_committed_state_witness :
    get_room_state [("AB", roomD)] "ZZ" = none ∧
    get_room_state [("AB", roomD)] "AB" =
      some ⟨"AB", dictKeys roomD.player_names, roomD.numbers_drawn, roomD.winner⟩ :=
  ⟨(snapshot_returns_committed_state [("AB", roomD)] "ZZ").1 (by decide),
   (snapshot_returns_committed_state [("AB", roomD)] "AB").2 roomD (by decide)⟩

/-- C9 counterexample: the snapshot contains no round component — after a
`reset` of `roomA` (which the claim says increments `round`, forcing the two
snapshots to differ) the query returns exactly the same response as before
the reset. -/
theorem snapshot_unchanged_by_reset :
    get_room_state [("AB", (handleReset roomA 1).1)] "AB" =
      get_room_state [("AB", roomA)] "AB" ∧
    get_room_state [("AB", roomA)] "AB" =
      some ⟨"AB", ["Alice"], [], none⟩ := by decide

/-! ## C10 -/

/-- C10: opening a connection to a room binds it to the placeholder name
"Unknown"; a winner declaration from such a never-joined connection, when no
winner is set, sets the room's winner to the literal string "Unknown" and
the phase to "finished", and broadcasts that winner to every bound
connection. -/
theorem unjoined_connection_unknown_winner (room : Room) (ws : Conn)
    (hw : room.winner = none) :
    dictGet (step room (Act.conn_open ws)).1.players ws = some "Unknown" ∧
    (handleWinner (step room (Act.conn_open ws)).1 ws).1.winner = some "Unknown" ∧
    (handleWinner (step room (Act.conn_open ws)).1 ws).1.phase = "finished" ∧
    (handleWinner (step room (Act.conn_open ws)).1 ws).2 =
      (dictKeys (step room (Act.conn_open ws)).1.players).map
        (fun c => (c, Event.winner (some "Unknown") "finished")) := by
  have h1 : dictGet (step room (Act.conn_open ws)).1.players ws = some "Unknown" :=
    dictGet_dictInsert_self room.players ws "Unknown"
  have htw : truthy (step room (Act.conn_open ws)).1.winner = false := by
    show truthy room.winner = false
    rw [hw]
    rfl
  refine ⟨h1, ?_, ?_, ?_⟩ <;>
    simp [handleWinner, htw, h1]

/-- Witness for `unjoined_connection_unknown_winner`: connection 3 opens a
channel to `roomW` (no winner set), never joins, and its winner declaration
makes "Unknown" the room's winner. -/
theorem unjoined_connection_unknown_winner_witness :
    roomW.winner = none ∧
    (dictGet (step roomW (Act.conn_open 3)).1.players 3 = some "Unknown" ∧
     (handleWinner (step roomW (Act.conn_open 3)).1 3).1.winner = some "Unknown" ∧
     (handleWinner (step roomW (Act.conn_open 3)).1 3).1.phase = "finished" ∧
     (handleWinner (step roomW (Act.conn_open 3)).1 3).2 =
       (dictKeys (step roomW (Act.conn_open 3)).1.players).map
         (fun c => (c, Event.winner (some "Unknown") "finished"))) :=
  ⟨by decide, unjoined_connection_unknown_winner roomW 3 (by decide)⟩
